import Mathlib

/-!
# n8n-backup — verification of the reconciliation and versioning engine spec

Shallow embedding of the `gander-tools/n8n-backup` repository: the PocketBase
client wrapper and the retry helper are translated from the TypeScript source;
the reconciliation-engine components (Compatibility Gate, Object Comparator,
Per-Object Reconciler, Operation Orchestrator, Retention Evaluator) are not
present in the source tree and are modelled from the specification where a
claim needs them.
-/

namespace N8nBackup

/-! ## Version tags and the Compatibility Gate -/

/-- A parsed semantic version tag `(major, minor, patch)`. -/
structure SemVer where
  major : Nat
  minor : Nat
  patch : Nat
deriving DecidableEq, Repr

/-- Split a character list on `.` separators (empty segments preserved). -/
def splitDots : List Char → List (List Char)
  | [] => [[]]
  | c :: rest =>
    if c = '.' then [] :: splitDots rest
    else
      match splitDots rest with
      | [] => [[c]]
      | g :: gs => (c :: g) :: gs

/-- Interpret a nonempty all-digit character list as a natural number. -/
def digitsToNat? (cs : List Char) : Option Nat :=
  if cs ≠ [] ∧ cs.all (fun c => '0' ≤ c ∧ c ≤ '9') then
    some (cs.foldl (fun acc c => acc * 10 + (c.toNat - '0'.toNat)) 0)
  else
    none

/-- Modelled from the spec: the Compatibility Gate "parses both tags as
(major, minor, patch)"; a tag parses when it has exactly three dot-separated
numeric components. No parser exists under `src/`. -/
def parseVersionTag (s : String) : Option SemVer :=
  match (splitDots s.data).map digitsToNat? with
  | [some a, some b, some c] => some ⟨a, b, c⟩
  | _ => none

/-- Gate decision: `proceed` or `abort`, with a reason. -/
inductive GateDecision
  | proceed (reason : String)
  | abort (reason : String)
deriving DecidableEq, Repr

/-- Gate outcome: `InvalidVersionFormat` failure, or a decision. -/
inductive GateResult
  | invalidVersionFormat (tag : String)
  | decision (d : GateDecision)
deriving DecidableEq, Repr

/-- Reason attached to an aborting decision; it names both versions. -/
def abortReason (sourceTag targetTag : String) : String :=
  "Incompatible versions: source " ++ sourceTag ++ ", target " ++ targetTag

/-- Modelled from the spec: `checkCompatibility(sourceVersionTag,
targetVersionTag) -> Decision{proceed|abort, reason}`; fails with
`InvalidVersionFormat` if either tag does not parse, proceeds only if major
and minor are exactly equal (patch may differ). The Gate is not implemented
under `src/`. -/
def checkCompatibility (sourceTag targetTag : String) : GateResult :=
  match parseVersionTag sourceTag, parseVersionTag targetTag with
  | none, _ => .invalidVersionFormat sourceTag
  | some _, none => .invalidVersionFormat targetTag
  | some s, some t =>
    if s.major = t.major ∧ s.minor = t.minor then
      .decision (.proceed "compatible versions")
    else
      .decision (.abort (abortReason sourceTag targetTag))

/-- Whether a gate outcome is a `proceed` decision. -/
def GateResult.isProceed : GateResult → Bool
  | .decision (.proceed _) => true
  | _ => false

/-- Whether a gate outcome is an `abort` decision. -/
def GateResult.isAbort : GateResult → Bool
  | .decision (.abort _) => true
  | _ => false

example : parseVersionTag "1.4.2" = some ⟨1, 4, 2⟩ := by decide
example : parseVersionTag "1.4" = none := by decide
example : (checkCompatibility "1.4.2" "1.4.9").isProceed = true := by decide
example : (checkCompatibility "1.4.2" "1.5.0").isAbort = true := by decide

/-- C1: for every pair of version tags that both parse as (major, minor,
patch), `checkCompatibility` returns a proceed decision if and only if the
major components and the minor components are equal (patch may differ), and
otherwise — in particular for any differing minor — it returns an abort
decision; concretely `checkCompatibility "1.4.2" "1.4.9"` proceeds and
`checkCompatibility "1.4.2" "1.5.0"` aborts. -/
theorem checkCompatibility_proceed_iff
    (s t : String) (vs vt : SemVer)
    (hs : parseVersionTag s = some vs) (ht : parseVersionTag t = some vt) :
    ((checkCompatibility s t).isProceed = true ↔
      vs.major = vt.major ∧ vs.minor = vt.minor)
    ∧ ((checkCompatibility s t).isAbort = true ↔
      ¬(vs.major = vt.major ∧ vs.minor = vt.minor))
    ∧ (checkCompatibility "1.4.2" "1.4.9").isProceed = true
    ∧ (checkCompatibility "1.4.2" "1.5.0").isAbort = true := by
  refine ⟨?_, ?_, by decide, by decide⟩ <;>
    · unfold checkCompatibility
      rw [hs, ht]
      by_cases h : vs.major = vt.major ∧ vs.minor = vt.minor <;>
        simp [h, GateResult.isProceed, GateResult.isAbort]

/-- Witness for C1 at the spec's concrete scenario. -/
theorem checkCompatibility_proceed_iff_witness :
    (checkCompatibility "1.4.2" "1.4.9").isProceed = true :=
  (checkCompatibility_proceed_iff "1.4.2" "1.4.9" ⟨1, 4, 2⟩ ⟨1, 4, 9⟩
    (by decide) (by decide)).1.mpr (by decide)

/-! ## retryWithBackoff (`tests/integration/helpers.ts`)

The TypeScript helper loops `for i in [0, maxRetries)`, invoking `fn` each
iteration; it returns the first successful result, sleeps
`initialDelay * 2 ** i` after a failed attempt `i` that is not the last, and
rethrows the last error (or `'Retry failed'` when the loop never ran) after
exhaustion. `fn` is modelled as a stream of per-invocation outcomes; the
trace records the result, the invocation count, and the sleeps in order. -/

/-- Observable trace of one `retryWithBackoff` run. -/
structure RetryTrace (α : Type) where
  result : Except String α
  calls : Nat
  delays : List Nat
deriving Repr

/-- The retry loop from attempt index `i` with `remaining` iterations left. -/
def retryAux (attempts : Nat → Except String α) (initialDelay : Nat) :
    Nat → Nat → RetryTrace α
  | _, 0 => ⟨.error "Retry failed", 0, []⟩
  | i, remaining + 1 =>
    match attempts i with
    | .ok v => ⟨.ok v, 1, []⟩
    | .error e =>
      if remaining = 0 then ⟨.error e, 1, []⟩
      else
        let t := retryAux attempts initialDelay (i + 1) remaining
        ⟨t.result, t.calls + 1, initialDelay * 2 ^ i :: t.delays⟩

/-- `retryWithBackoff(fn, maxRetries, initialDelay)`. -/
def retryWithBackoff (attempts : Nat → Except String α)
    (maxRetries initialDelay : Nat) : RetryTrace α :=
  retryAux attempts initialDelay 0 maxRetries

lemma retryAux_calls_le (attempts : Nat → Except String α) (d : Nat) :
    ∀ rem i, (retryAux attempts d i rem).calls ≤ rem := by
  intro rem
  induction rem with
  | zero => intro i; simp [retryAux]
  | succ r ih =>
    intro i
    unfold retryAux
    cases h : attempts i with
    | ok v => simp
    | error e =>
      by_cases hr : r = 0
      · simp [hr]
      · simpa [hr] using Nat.succ_le_succ (ih (i + 1))

lemma retryAux_first_success (attempts : Nat → Except String α) (d : Nat) :
    ∀ k rem i v, k < rem → attempts (i + k) = .ok v →
      (∀ j, j < k → ∀ w, attempts (i + j) ≠ .ok w) →
      (retryAux attempts d i rem).result = .ok v
      ∧ (retryAux attempts d i rem).calls = k + 1 := by
  intro k
  induction k with
  | zero =>
    intro rem i v hlt hok _
    obtain ⟨r, rfl⟩ := Nat.exists_eq_add_of_lt hlt
    rw [Nat.add_zero] at hok ⊢
    unfold retryAux
    rw [Nat.zero_add, hok]
    exact ⟨rfl, rfl⟩
  | succ k ih =>
    intro rem i v hlt hok hfail
    obtain ⟨r, rfl⟩ := Nat.exists_eq_add_of_lt hlt
    have hr : k + 1 + r + 1 = (k + r + 1) + 1 := by omega
    rw [hr]
    unfold retryAux
    have hi : ∀ w, attempts i ≠ Except.ok w := by
      intro w
      simpa using hfail 0 (Nat.succ_pos k) w
    cases hcur : attempts i with
    | ok w => exact absurd hcur (hi w)
    | error e =>
      have hrne : k + r + 1 ≠ 0 := by omega
      have hrec := ih (k + r + 1) (i + 1) v (by omega)
        (by rw [show i + 1 + k = i + (k + 1) by omega]; exact hok)
        (by
          intro j hj w
          rw [show i + 1 + j = i + (j + 1) by omega]
          exact hfail (j + 1) (by omega) w)
      simp only [hrne, if_false]
      exact ⟨hrec.1, by rw [hrec.2]⟩

lemma retryAux_delays_getD (attempts : Nat → Except String α) (d : Nat) :
    ∀ rem i j, j < (retryAux attempts d i rem).delays.length →
      (retryAux attempts d i rem).delays.getD j 0 = d * 2 ^ (i + j) := by
  intro rem
  induction rem with
  | zero => intro i j hj; simp [retryAux] at hj
  | succ r ih =>
    intro i j hj
    unfold retryAux at hj ⊢
    cases hcur : attempts i with
    | ok v => rw [hcur] at hj; simp at hj
    | error e =>
      rw [hcur] at hj
      by_cases hr : r = 0
      · subst hr; simp at hj
      · cases j with
        | zero => simp [hr]
        | succ j =>
          simp [hr] at hj
          have hj' : j < (retryAux attempts d (i + 1) r).delays.length := by
            omega
          have hrec := ih (i + 1) j hj'
          simp only [hr, if_false, List.getD_cons_succ]
          rw [show i + (j + 1) = i + 1 + j from by omega]
          exact hrec

/-- C3: the retry loop invokes `fn` at most `maxRetries` times; when the
`k`-th invocation (counted from 0, `k < maxRetries`) is the first successful
one, no further invocation occurs (`calls = k + 1`) and its result is
returned unchanged; and the delay slept after failed attempt `j` — i.e.
before attempt `j + 1` — equals `initialDelay * 2 ^ j`. -/
theorem retryWithBackoff_spec (attempts : Nat → Except String α)
    (maxRetries initialDelay : Nat) (_hpos : 1 ≤ maxRetries) :
    (retryWithBackoff attempts maxRetries initialDelay).calls ≤ maxRetries
    ∧ (∀ k v, k < maxRetries → attempts k = .ok v →
        (∀ j, j < k → ∀ w, attempts j ≠ .ok w) →
        (retryWithBackoff attempts maxRetries initialDelay).result = .ok v
        ∧ (retryWithBackoff attempts maxRetries initialDelay).calls = k + 1)
    ∧ (∀ j, j < (retryWithBackoff attempts maxRetries initialDelay).delays.length →
        (retryWithBackoff attempts maxRetries initialDelay).delays.getD j 0
          = initialDelay * 2 ^ j) := by
  refine ⟨retryAux_calls_le attempts initialDelay maxRetries 0, ?_, ?_⟩
  · intro k v hk hok hfail
    exact retryAux_first_success attempts initialDelay k maxRetries 0 v hk
      (by simpa using hok) (by simpa using hfail)
  · intro j hj
    simpa using retryAux_delays_getD attempts initialDelay maxRetries 0 j hj

/-- Witness for C3: one failure then success, so two calls and result 7. -/
theorem retryWithBackoff_spec_witness :
    (retryWithBackoff
        (fun n => if n = 0 then Except.error "boom" else Except.ok 7)
        3 100).result = Except.ok 7 :=
  ((retryWithBackoff_spec
      (fun n => if n = 0 then Except.error "boom" else Except.ok 7)
      3 100 (by decide)).2.1 1 7 (by decide) (by rfl)
    (by
      intro j hj w
      have hz : j = 0 := by omega
      subst hz
      simp)).1

/-! ## ObjectReport and the Per-Object Reconciler -/

/-- ObjectReport status: `success`, `skipped`, or `error`. -/
inductive ReportStatus
  | success
  | skipped
  | error
deriving DecidableEq, Repr

/-- ObjectReport skip reason enum. -/
inductive SkipReason
  | none
  | validationFailed
  | duplicate
  | dependencyMissing
  | unsupported
deriving DecidableEq, Repr

/-- Per-object report: resource type, resource id, status, human message,
skip reason, optional error detail, timestamp. -/
structure ObjectReport where
  resourceType : String
  resourceId : String
  status : ReportStatus
  message : String
  skipReason : SkipReason
  errorDetail : Option String
  timestamp : Nat
deriving DecidableEq, Repr

/-- One workflow/credential/tag snapshot: external id, captured payload, and
the dependency ids it declares. -/
structure SourceObject where
  resourceType : String
  id : String
  payload : String
  dependencies : List String
deriving DecidableEq, Repr

/-- Outcome of one mutation attempt against the target platform. -/
inductive AttemptOutcome
  | applied (created : Bool)
  | transient (msg : String)
  | permanent (msg : String)
deriving DecidableEq, Repr

/-- Merge strategy variants. -/
inductive MergeStrategy
  | sourceWins
  | targetWins
  | updateExisting
  | addMissing
deriving DecidableEq, Repr

/-- Modelled from the spec: the Reconciler's bounded retry core — "on
transient failure (timeout, 5xx, rate-limit) retries with exponential backoff
up to a bounded attempt count; on non-retryable failure" it fails at once.
No Reconciler exists under `src/`; the loop shape follows `retryWithBackoff`
in `tests/integration/helpers.ts`, with non-retryable failures cut short. -/
def reconcileAttempts (outcomes : Nat → AttemptOutcome) :
    Nat → Nat → Except String Bool
  | _, 0 => .error "retry attempts exhausted"
  | i, remaining + 1 =>
    match outcomes i with
    | .applied created => .ok created
    | .permanent msg => .error msg
    | .transient msg =>
      if remaining = 0 then .error msg
      else reconcileAttempts outcomes (i + 1) remaining

/-- Whether the strategy applies a mutation given presence in the target. -/
def shouldApply (strategy : MergeStrategy) (presentInTarget : Bool) : Bool :=
  match strategy with
  | .sourceWins => true
  | .targetWins => !presentInTarget
  | .updateExisting => presentInTarget
  | .addMissing => !presentInTarget

/-- Modelled from the spec: `reconcile(object, targetState, strategy) ->
ObjectReport`. A declared dependency absent from the working set yields
`skipped`/`dependency_missing`; a strategy that skips yields `skipped`;
otherwise exactly one mutation (with the bounded retry core) is attempted
and its failure is converted to an `error` report at this boundary — the
function is total and never propagates an exception. No Reconciler exists
under `src/`. -/
def reconcileObject (obj : SourceObject) (workingSetIds targetIds : List String)
    (strategy : MergeStrategy) (outcomes : Nat → AttemptOutcome)
    (maxAttempts now : Nat) : ObjectReport :=
  if obj.dependencies.any (fun d => !(workingSetIds.contains d)) then
    { resourceType := obj.resourceType, resourceId := obj.id,
      status := .skipped, message := "missing dependency",
      skipReason := .dependencyMissing, errorDetail := Option.none,
      timestamp := now }
  else if !(shouldApply strategy (targetIds.contains obj.id)) then
    { resourceType := obj.resourceType, resourceId := obj.id,
      status := .skipped, message := "strategy skipped object",
      skipReason := .duplicate, errorDetail := Option.none,
      timestamp := now }
  else
    match reconcileAttempts outcomes 0 maxAttempts with
    | .ok created =>
      { resourceType := obj.resourceType, resourceId := obj.id,
        status := .success,
        message := if created then "created" else "updated",
        skipReason := .none, errorDetail := Option.none, timestamp := now }
    | .error m =>
      { resourceType := obj.resourceType, resourceId := obj.id,
        status := .error, message := "reconciliation failed",
        skipReason := .none, errorDetail := Option.some m, timestamp := now }

/-- C2: the Reconciler boundary converts every per-object failure into an
`error` ObjectReport instead of letting it unwind the run: whenever the
bounded retry core ends in a failure — exhaustion of all attempts or a
non-retryable failure — and no skip rule intervened, `reconcileObject`
still returns a report, with status `error` and the failure as its detail.
(Totality of `reconcileObject` itself embeds "never raises".) -/
theorem reconciler_converts_failures
    (obj : SourceObject) (workingSetIds targetIds : List String)
    (strategy : MergeStrategy) (outcomes : Nat → AttemptOutcome)
    (maxAttempts now : Nat) (m : String)
    (hdep : obj.dependencies.any (fun d => !(workingSetIds.contains d)) = false)
    (happ : shouldApply strategy (targetIds.contains obj.id) = true)
    (hfail : reconcileAttempts outcomes 0 maxAttempts = Except.error m) :
    reconcileObject obj workingSetIds targetIds strategy outcomes maxAttempts now
      = { resourceType := obj.resourceType, resourceId := obj.id,
          status := .error, message := "reconciliation failed",
          skipReason := .none, errorDetail := Option.some m,
          timestamp := now } := by
  unfold reconcileObject
  rw [hdep, happ, hfail]
  simp

/-- Witness for C2: two transient failures exhaust two attempts and come
back as an `error` report carrying the last failure. -/
theorem reconciler_converts_failures_witness :
    reconcileObject ⟨"workflow", "a", "data1", []⟩ ["a"] []
        MergeStrategy.sourceWins (fun _ => AttemptOutcome.transient "timeout")
        2 5
      = { resourceType := "workflow", resourceId := "a",
          status := .error, message := "reconciliation failed",
          skipReason := .none, errorDetail := Option.some "timeout",
          timestamp := 5 } :=
  reconciler_converts_failures ⟨"workflow", "a", "data1", []⟩ ["a"] []
    MergeStrategy.sourceWins (fun _ => AttemptOutcome.transient "timeout")
    2 5 "timeout" (by decide) (by decide) (by rfl)

/-! ## Operation Orchestrator (restore path), modelled from the spec -/

/-- Overall run status; `withErrors` models the spec's partial-success
status (errors occurred but the run completed). -/
inductive RunStatus
  | success
  | withErrors
  | failed
  | aborted
deriving DecidableEq, Repr

/-- The operation's permanent audit record. -/
structure AuditRecord where
  operation : String
  status : RunStatus
  reason : String
  versionRef : Option String
deriving DecidableEq, Repr

/-- Observable outcome of one Orchestrator run: which object ids the
Per-Object Reconciler was invoked on, the per-object reports, the audit
records emitted, and the overall status. -/
structure RunOutcome where
  reconcilerInvocations : List String
  reports : List ObjectReport
  audits : List AuditRecord
  status : RunStatus
deriving DecidableEq, Repr

/-- Modelled from the spec: the `RECONCILING` fan-out — the Reconciler is
invoked for every object of the input set, aggregating the per-call
ObjectReport regardless of individual failures. Not implemented under
`src/`. -/
def reconcileAll (objects : List SourceObject)
    (workingSetIds targetIds : List String) (strategy : MergeStrategy)
    (outcomes : String → Nat → AttemptOutcome) (maxAttempts now : Nat) :
    List ObjectReport :=
  objects.map (fun o =>
    reconcileObject o workingSetIds targetIds strategy (outcomes o.id)
      maxAttempts now)

/-- Modelled from the spec: a restore run — Gate first; on `abort` no
create/update is performed against the target and a single AuditRecord with
status `aborted` is still emitted; on `proceed` the Reconciler runs for
every object and one audit record is written. Not implemented under
`src/`. -/
def runRestore (sourceTag targetTag : String) (objects : List SourceObject)
    (targetIds : List String) (strategy : MergeStrategy)
    (outcomes : String → Nat → AttemptOutcome) (maxAttempts now : Nat) :
    RunOutcome :=
  match checkCompatibility sourceTag targetTag with
  | .invalidVersionFormat tag =>
    { reconcilerInvocations := [], reports := [], status := .failed,
      audits := [{ operation := "restore", status := .failed,
                   reason := "invalid version format: " ++ tag,
                   versionRef := Option.none }] }
  | .decision (.abort reason) =>
    { reconcilerInvocations := [], reports := [], status := .aborted,
      audits := [{ operation := "restore", status := .aborted,
                   reason := reason, versionRef := Option.none }] }
  | .decision (.proceed _) =>
    let reports := reconcileAll objects (objects.map (fun o => o.id))
      targetIds strategy outcomes maxAttempts now
    let st := if reports.any (fun r => decide (r.status = ReportStatus.error))
      then RunStatus.withErrors else RunStatus.success
    { reconcilerInvocations := objects.map (fun o => o.id),
      reports := reports, status := st,
      audits := [{ operation := "restore", status := st,
                   reason := "run completed", versionRef := Option.none }] }

/-- `needle` occurs verbatim inside `hay`. -/
def mentions (hay needle : String) : Prop :=
  ∃ pre post, hay.data = pre ++ needle.data ++ post

lemma data_append (a b : String) : (a ++ b).data = a.data ++ b.data := rfl

lemma abortReason_mentions (s t : String) :
    mentions (abortReason s t) s ∧ mentions (abortReason s t) t := by
  constructor
  · refine ⟨"Incompatible versions: source ".data, (", target " ++ t).data, ?_⟩
    simp [abortReason, data_append, List.append_assoc]
  · refine ⟨("Incompatible versions: source " ++ s ++ ", target ").data, [], ?_⟩
    simp [abortReason, data_append, List.append_assoc]

lemma checkCompatibility_abort_reason (s t r : String)
    (h : checkCompatibility s t = .decision (.abort r)) :
    r = abortReason s t := by
  unfold checkCompatibility at h
  cases hs : parseVersionTag s with
  | none => rw [hs] at h; simp at h
  | some vs =>
    cases ht : parseVersionTag t with
    | none => rw [hs, ht] at h; simp at h
    | some vt =>
      rw [hs, ht] at h
      by_cases hc : vs.major = vt.major ∧ vs.minor = vt.minor
      · simp [hc] at h
      · simp [hc] at h
        first
        | exact h
        | exact h.symm

/-- C4: when the Compatibility Gate decides `abort`, the restore run makes
zero Reconciler invocations (no create or update against the target, no
reports) and still emits exactly one AuditRecord, whose status is `aborted`
and whose reason names both version tags. -/
theorem gate_abort_no_reconcile
    (sourceTag targetTag : String) (objects : List SourceObject)
    (targetIds : List String) (strategy : MergeStrategy)
    (outcomes : String → Nat → AttemptOutcome) (maxAttempts now : Nat)
    (reason : String)
    (hab : checkCompatibility sourceTag targetTag
      = .decision (.abort reason)) :
    (runRestore sourceTag targetTag objects targetIds strategy outcomes
        maxAttempts now).reconcilerInvocations = []
    ∧ (runRestore sourceTag targetTag objects targetIds strategy outcomes
        maxAttempts now).reports = []
    ∧ (runRestore sourceTag targetTag objects targetIds strategy outcomes
        maxAttempts now).audits
      = [{ operation := "restore", status := .aborted, reason := reason,
           versionRef := Option.none }]
    ∧ (runRestore sourceTag targetTag objects targetIds strategy outcomes
        maxAttempts now).status = .aborted
    ∧ mentions reason sourceTag ∧ mentions reason targetTag := by
  have hr : reason = abortReason sourceTag targetTag :=
    checkCompatibility_abort_reason sourceTag targetTag reason hab
  unfold runRestore
  rw [hab]
  refine ⟨rfl, rfl, rfl, rfl, ?_, ?_⟩
  · rw [hr]; exact (abortReason_mentions sourceTag targetTag).1
  · rw [hr]; exact (abortReason_mentions sourceTag targetTag).2

/-- Witness for C4 at the spec's concrete abort scenario. -/
theorem gate_abort_no_reconcile_witness :
    (runRestore "1.4.2" "1.5.0" [⟨"workflow", "a", "data1", []⟩] []
        MergeStrategy.sourceWins (fun _ _ => AttemptOutcome.applied true)
        3 0).reconcilerInvocations = [] :=
  (gate_abort_no_reconcile "1.4.2" "1.5.0" [⟨"workflow", "a", "data1", []⟩]
    [] MergeStrategy.sourceWins (fun _ _ => AttemptOutcome.applied true)
    3 0 (abortReason "1.4.2" "1.5.0") (by rfl)).1

lemma reconcileObject_resourceId (obj : SourceObject)
    (workingSetIds targetIds : List String) (strategy : MergeStrategy)
    (outcomes : Nat → AttemptOutcome) (maxAttempts now : Nat) :
    (reconcileObject obj workingSetIds targetIds strategy outcomes
      maxAttempts now).resourceId = obj.id := by
  unfold reconcileObject
  repeat' split
  all_goals rfl

/-- C5: the reconciling fan-out produces exactly one ObjectReport per input
object — the report count equals the input count and the reports' resource
ids are, in order, the objects' ids (no duplicates, no omissions) — and in
every restore run, aborted or not, the reports correspond one-to-one to the
objects the Reconciler was invoked on. -/
theorem one_report_per_object
    (objects : List SourceObject) (workingSetIds targetIds : List String)
    (strategy : MergeStrategy) (outcomes : String → Nat → AttemptOutcome)
    (maxAttempts now : Nat) (sourceTag targetTag : String) :
    (reconcileAll objects workingSetIds targetIds strategy outcomes
        maxAttempts now).length = objects.length
    ∧ (reconcileAll objects workingSetIds targetIds strategy outcomes
        maxAttempts now).map (fun r => r.resourceId)
      = objects.map (fun o => o.id)
    ∧ (runRestore sourceTag targetTag objects targetIds strategy outcomes
        maxAttempts now).reports.map (fun r => r.resourceId)
      = (runRestore sourceTag targetTag objects targetIds strategy outcomes
        maxAttempts now).reconcilerInvocations := by
  have hmap : ∀ ws : List String,
      (reconcileAll objects ws targetIds strategy outcomes
        maxAttempts now).map (fun r => r.resourceId)
      = objects.map (fun o => o.id) := by
    intro ws
    unfold reconcileAll
    rw [List.map_map]
    refine List.map_congr_left ?_
    intro o _
    exact reconcileObject_resourceId o ws targetIds strategy (outcomes o.id)
      maxAttempts now
  refine ⟨by simp [reconcileAll], hmap workingSetIds, ?_⟩
  unfold runRestore
  cases hg : checkCompatibility sourceTag targetTag with
  | invalidVersionFormat tag => rfl
  | decision d =>
    cases d with
    | abort reason => rfl
    | proceed reason =>
      simpa using hmap (objects.map (fun o => o.id))

/-! ## Object Comparator (modelled from the spec) -/

/-- One object snapshot: external id and captured content. -/
structure Snapshot where
  id : String
  payload : String
deriving DecidableEq, Repr

/-- `diff` classification result. -/
structure DiffResult where
  added : List Snapshot
  modified : List Snapshot
  removed : List Snapshot
  unchanged : List Snapshot
deriving DecidableEq, Repr

/-- Lookup in an object set by external id. -/
def lookupById (objs : List Snapshot) (i : String) : Option Snapshot :=
  objs.find? (fun o => o.id == i)

/-- Modelled from the spec: `diff(baseSet, currentSet) -> {added, modified,
removed, unchanged}`, keyed by external object id — an id only in
`currentSet` is added, in both with differing content modified, only in
`baseSet` removed, otherwise unchanged. The Comparator is not implemented
under `src/`. -/
def diff (baseSet currentSet : List Snapshot) : DiffResult :=
  { added := currentSet.filter (fun o => (lookupById baseSet o.id).isNone)
  , modified := currentSet.filter (fun o =>
      match lookupById baseSet o.id with
      | Option.some b => decide (b.payload ≠ o.payload)
      | Option.none => false)
  , removed := baseSet.filter (fun o => (lookupById currentSet o.id).isNone)
  , unchanged := currentSet.filter (fun o =>
      match lookupById baseSet o.id with
      | Option.some b => decide (b.payload = o.payload)
      | Option.none => false) }

lemma lookupById_self (S : List Snapshot)
    (h : (S.map (fun o => o.id)).Nodup) :
    ∀ o ∈ S, lookupById S o.id = Option.some o := by
  induction S with
  | nil => simp
  | cons a S ih =>
    intro o ho
    simp only [List.map_cons, List.nodup_cons] at h
    obtain ⟨ha, hS⟩ := h
    rcases List.mem_cons.mp ho with rfl | hmem
    · simp [lookupById, List.find?]
    · have hne : (a.id == o.id) = false := by
        simp only [beq_eq_false_iff_ne, ne_eq]
        intro he
        exact ha (he ▸ List.mem_map_of_mem (fun o => o.id) hmem)
      unfold lookupById
      rw [List.find?_cons_of_neg _ (by simp [hne])]
      exact ih hS o hmem

/-- C6: self-diff law — comparing an object set against itself classifies
every object as unchanged and nothing as added, modified, or removed. -/
theorem diff_self (S : List Snapshot)
    (h : (S.map (fun o => o.id)).Nodup) :
    diff S S
      = { added := [], modified := [], removed := [], unchanged := S } := by
  have hlook := lookupById_self S h
  unfold diff
  simp only [DiffResult.mk.injEq]
  refine ⟨?_, ?_, ?_, ?_⟩
  · rw [List.filter_eq_nil_iff]
    intro o ho
    simp [hlook o ho]
  · rw [List.filter_eq_nil_iff]
    intro o ho
    simp [hlook o ho]
  · rw [List.filter_eq_nil_iff]
    intro o ho
    simp [hlook o ho]
  · rw [List.filter_eq_self]
    intro o ho
    simp [hlook o ho]

/-- Witness for C6 on a concrete two-object set. -/
theorem diff_self_witness :
    diff [⟨"a", "x"⟩, ⟨"b", "y"⟩] [⟨"a", "x"⟩, ⟨"b", "y"⟩]
      = { added := [], modified := [], removed := [],
          unchanged := [⟨"a", "x"⟩, ⟨"b", "y"⟩] } :=
  diff_self [⟨"a", "x"⟩, ⟨"b", "y"⟩] (by decide)

/-! ## Retention Evaluator (modelled from the spec) -/

/-- A stored Version as the Retention Evaluator sees it: identity, creation
timestamp, and protection tags. -/
structure StoredVersion where
  id : String
  created : Nat
  tags : List String
deriving DecidableEq, Repr

/-- Retention rules: keep-last-N, keep-newer-than, keep-tagged. -/
inductive RetentionRule
  | keepLastN (n : Nat)
  | keepNewerThan (cutoff : Nat)
  | keepTagged (tag : String)
deriving DecidableEq, Repr

/-- Recency rank: how many versions are strictly more recent. -/
def recencyRank (versions : List StoredVersion) (v : StoredVersion) : Nat :=
  (versions.filter (fun w => decide (v.created < w.created))).length

/-- Whether a single rule protects a version. -/
def matchesRule (versions : List StoredVersion) (v : StoredVersion) :
    RetentionRule → Bool
  | .keepLastN n => decide (recencyRank versions v < n)
  | .keepNewerThan cutoff => decide (cutoff < v.created)
  | .keepTagged tag => v.tags.contains tag

/-- Whether `v` is the most recent version of the collection. -/
def isMostRecent (versions : List StoredVersion) (v : StoredVersion) : Bool :=
  versions.all (fun w => decide (w.created ≤ v.created))

/-- Retention evaluation result. -/
structure RetentionResult where
  retain : List StoredVersion
  eligibleForDeletion : List StoredVersion
deriving DecidableEq, Repr

/-- Modelled from the spec: `evaluate(versions[], policy) -> {retain[],
eligibleForDeletion[]}` — a Version is retained if it matches any rule (OR
semantics) or if it is the single most recent Version overall (hard safety
floor, independent of policy); everything else is eligible for deletion.
The Retention Evaluator is not implemented under `src/`. -/
def evaluateRetention (versions : List StoredVersion)
    (policy : List RetentionRule) : RetentionResult :=
  { retain := versions.filter (fun v =>
      policy.any (matchesRule versions v) || isMostRecent versions v)
  , eligibleForDeletion := versions.filter (fun v =>
      !(policy.any (matchesRule versions v) || isMostRecent versions v)) }

lemma exists_ge_all (l : List StoredVersion) (hne : l ≠ []) :
    ∃ v ∈ l, ∀ w ∈ l, w.created ≤ v.created := by
  induction l with
  | nil => exact absurd rfl hne
  | cons a S ih =>
    by_cases hS : S = []
    · subst hS
      refine ⟨a, List.mem_cons_self a [], ?_⟩
      intro w hw
      rcases List.mem_cons.mp hw with rfl | hw'
      · exact Nat.le_refl _
      · simp at hw'
    · obtain ⟨v, hv, hall⟩ := ih hS
      by_cases hc : a.created ≤ v.created
      · refine ⟨v, List.mem_cons_of_mem a hv, ?_⟩
        intro w hw
        rcases List.mem_cons.mp hw with rfl | hw'
        · exact hc
        · exact hall w hw'
      · refine ⟨a, List.mem_cons_self a S, ?_⟩
        intro w hw
        rcases List.mem_cons.mp hw with rfl | hw'
        · exact Nat.le_refl _
        · exact Nat.le_trans (hall w hw') (Nat.le_of_not_le hc)

/-- C7: the hard safety floor — for every non-empty version collection and
every policy (the empty policy included), a most recent Version exists, and
every most recent Version lands in `retain` and never in
`eligibleForDeletion`. -/
theorem retention_safety_floor (versions : List StoredVersion)
    (policy : List RetentionRule) (hne : versions ≠ []) :
    (∃ v ∈ versions, isMostRecent versions v = true)
    ∧ (∀ v ∈ versions, isMostRecent versions v = true →
        v ∈ (evaluateRetention versions policy).retain
        ∧ v ∉ (evaluateRetention versions policy).eligibleForDeletion) := by
  constructor
  · obtain ⟨v, hv, hall⟩ := exists_ge_all versions hne
    refine ⟨v, hv, ?_⟩
    simp only [isMostRecent, List.all_eq_true, decide_eq_true_eq]
    exact hall
  · intro v hv hmost
    constructor
    · unfold evaluateRetention
      rw [List.mem_filter]
      exact ⟨hv, by rw [hmost, Bool.or_true]⟩
    · unfold evaluateRetention
      rw [List.mem_filter]
      rintro ⟨-, hpred⟩
      rw [hmost, Bool.or_true] at hpred
      simp at hpred

/-- Witness for C7: two versions, empty policy; the newer one is retained. -/
theorem retention_safety_floor_witness :
    ⟨"v2", 5, []⟩ ∈ (evaluateRetention
      [⟨"v1", 1, []⟩, ⟨"v2", 5, []⟩] []).retain :=
  ((retention_safety_floor [⟨"v1", 1, []⟩, ⟨"v2", 5, []⟩] []
    (by decide)).2 ⟨"v2", 5, []⟩ (by decide) (by decide)).1

/-! ## PocketBaseClient (`src/services/pocketbase-client.ts`)

The client wraps the PocketBase SDK. Its observable state is the SDK auth
store (token plus validity). Each network-touching method is embedded as a
function of the client state and the SDK call's outcome, returning the
method's result together with the number of SDK calls it issued. -/

/-- The SDK auth store: current token and validity flag. -/
structure AuthStore where
  token : String
  isValid : Bool
deriving DecidableEq, Repr

/-- Observable `PocketBaseClient` state. -/
structure PBClientState where
  authStore : AuthStore
deriving DecidableEq, Repr

/-- `isAuthenticated(): boolean` — `this.client.authStore.isValid`. -/
def isAuthenticated (c : PBClientState) : Bool := c.authStore.isValid

/-- `getToken(): string` — `this.client.authStore.token`. -/
def getToken (c : PBClientState) : String := c.authStore.token

/-- The SDK's `authStore.clear()`: empties the token and invalidates. -/
def authStoreClear (_ : AuthStore) : AuthStore :=
  { token := "", isValid := false }

/-- `logout(): void` — `this.client.authStore.clear()`. Total: the method
body cannot throw. -/
def logout (c : PBClientState) : PBClientState :=
  { c with authStore := authStoreClear c.authStore }

/-- A PocketBase record (id plus payload fields). -/
structure PBRecord where
  id : String
  data : List (String × String)
deriving DecidableEq, Repr

/-- The guard message thrown by every data method when unauthenticated. -/
def notAuthenticatedMsg : String :=
  "Not authenticated. Call authenticate() first."

/-- `listCollections()`: guard, then one SDK call, errors rewrapped. -/
def listCollections (c : PBClientState)
    (sdk : Except String (List PBRecord)) :
    Except String (List PBRecord) × Nat :=
  if !(isAuthenticated c) then (.error notAuthenticatedMsg, 0)
  else
    match sdk with
    | .ok records => (.ok records, 1)
    | .error e => (.error ("Failed to list collections: " ++ e), 1)

/-- `createRecord(collection, data)`: guard, then one SDK call. -/
def createRecord (c : PBClientState) (collection : String)
    (_data : List (String × String)) (sdk : Except String PBRecord) :
    Except String PBRecord × Nat :=
  if !(isAuthenticated c) then (.error notAuthenticatedMsg, 0)
  else
    match sdk with
    | .ok record => (.ok record, 1)
    | .error e =>
      (.error ("Failed to create record in " ++ collection ++ ": " ++ e), 1)

/-- `getRecord(collection, id)`: guard, then one SDK call. -/
def getRecord (c : PBClientState) (collection i : String)
    (sdk : Except String PBRecord) : Except String PBRecord × Nat :=
  if !(isAuthenticated c) then (.error notAuthenticatedMsg, 0)
  else
    match sdk with
    | .ok record => (.ok record, 1)
    | .error e =>
      (.error ("Failed to get record " ++ i ++ " from " ++ collection
        ++ ": " ++ e), 1)

/-- `listRecords(collection)`: guard, then one SDK call. -/
def listRecords (c : PBClientState) (collection : String)
    (sdk : Except String (List PBRecord)) :
    Except String (List PBRecord) × Nat :=
  if !(isAuthenticated c) then (.error notAuthenticatedMsg, 0)
  else
    match sdk with
    | .ok records => (.ok records, 1)
    | .error e =>
      (.error ("Failed to list records from " ++ collection ++ ": " ++ e), 1)

/-- `updateRecord(collection, id, data)`: guard, then one SDK call. -/
def updateRecord (c : PBClientState) (collection i : String)
    (_data : List (String × String)) (sdk : Except String PBRecord) :
    Except String PBRecord × Nat :=
  if !(isAuthenticated c) then (.error notAuthenticatedMsg, 0)
  else
    match sdk with
    | .ok record => (.ok record, 1)
    | .error e =>
      (.error ("Failed to update record " ++ i ++ " in " ++ collection
        ++ ": " ++ e), 1)

/-- `deleteRecord(collection, id)`: guard, then one SDK call. -/
def deleteRecord (c : PBClientState) (collection i : String)
    (sdk : Except String Unit) : Except String Unit × Nat :=
  if !(isAuthenticated c) then (.error notAuthenticatedMsg, 0)
  else
    match sdk with
    | .ok u => (.ok u, 1)
    | .error e =>
      (.error ("Failed to delete record " ++ i ++ " from " ++ collection
        ++ ": " ++ e), 1)

/-- C8: on a client whose auth store is not valid, each of the six data
methods rejects with the `Not authenticated. Call authenticate() first.`
error and issues zero SDK/network calls, whatever the collection, id,
payload, or would-be SDK outcome. -/
theorem unauthenticated_methods_reject (c : PBClientState)
    (collection i : String) (payload : List (String × String))
    (sdkL sdkL2 : Except String (List PBRecord))
    (sdkR sdkR2 sdkR3 : Except String PBRecord) (sdkU : Except String Unit)
    (hauth : isAuthenticated c = false) :
    listCollections c sdkL = (.error notAuthenticatedMsg, 0)
    ∧ createRecord c collection payload sdkR
      = (.error notAuthenticatedMsg, 0)
    ∧ getRecord c collection i sdkR2 = (.error notAuthenticatedMsg, 0)
    ∧ listRecords c collection sdkL2 = (.error notAuthenticatedMsg, 0)
    ∧ updateRecord c collection i payload sdkR3
      = (.error notAuthenticatedMsg, 0)
    ∧ deleteRecord c collection i sdkU = (.error notAuthenticatedMsg, 0)
    ∧ mentions notAuthenticatedMsg "Not authenticated. Call authenticate() first." := by
  refine ⟨?_, ?_, ?_, ?_, ?_, ?_,
    ⟨[], [], by rw [List.nil_append, List.append_nil]; rfl⟩⟩ <;>
    simp [listCollections, createRecord, getRecord, listRecords,
      updateRecord, deleteRecord, hauth]

/-- Witness for C8 on a fresh unauthenticated client. -/
theorem unauthenticated_methods_reject_witness :
    listCollections ⟨⟨"", false⟩⟩ (Except.ok [])
      = (Except.error notAuthenticatedMsg, 0) :=
  (unauthenticated_methods_reject ⟨⟨"", false⟩⟩ "col" "rec1" []
    (Except.ok []) (Except.ok []) (Except.ok ⟨"rec1", []⟩)
    (Except.ok ⟨"rec1", []⟩) (Except.ok ⟨"rec1", []⟩) (Except.ok ())
    (by rfl)).1

/-- C10: `logout` is a total state transformation (it cannot throw), and on
every client state — already authenticated or not — it leaves the client
unauthenticated with an empty token. -/
theorem logout_clears_auth (c : PBClientState) :
    isAuthenticated (logout c) = false ∧ getToken (logout c) = "" :=
  ⟨rfl, rfl⟩

/-! ### healthCheck

`healthCheck` issues `GET <url>/api/health`; a non-ok response, a network
failure, or a body that fails to parse each end in the catch block, which
rewraps the message behind `PocketBase health check failed: `. On success it
builds the response from the body with JavaScript `||` defaulting: `code`
falls back to the HTTP status when the body's `code` is absent or `0`, and
`message` falls back to `'OK'` when absent or empty. -/

/-- Result of `response.json()`: a parse failure, or the parsed body with
its optional `code`, `message`, and `data` fields. -/
inductive JsonBody
  | parseFailure (msg : String)
  | parsed (code : Option Nat) (message : Option String)
      (data : Option (List (String × String)))
deriving DecidableEq, Repr

/-- Result of `fetch(url + "/api/health")`. -/
inductive FetchOutcome
  | networkError (msg : String)
  | response (ok : Bool) (status : Nat) (body : JsonBody)
deriving DecidableEq, Repr

/-- The resolved health check value. -/
structure PocketBaseHealthResponse where
  code : Nat
  message : String
  data : Option (List (String × String))
deriving DecidableEq, Repr

/-- JavaScript `a || b` over an optional number: `undefined` and `0` are
falsy. -/
def jsOrNat (a : Option Nat) (b : Nat) : Nat :=
  match a with
  | Option.some n => if n = 0 then b else n
  | Option.none => b

/-- JavaScript `a || b` over an optional string: `undefined` and `""` are
falsy. -/
def jsOrString (a : Option String) (b : String) : String :=
  match a with
  | Option.some s => if s = "" then b else s
  | Option.none => b

/-- The catch-block message prefix of `healthCheck`. -/
def healthCheckFailedPfx : String := "PocketBase health check failed: "

/-- `healthCheck()` as a function of the fetch outcome. -/
def healthCheck (outcome : FetchOutcome) :
    Except String PocketBaseHealthResponse :=
  match outcome with
  | .networkError m => .error (healthCheckFailedPfx ++ m)
  | .response ok status body =>
    if !ok then
      .error (healthCheckFailedPfx ++ "Health check failed with status "
        ++ toString status)
    else
      match body with
      | .parseFailure m => .error (healthCheckFailedPfx ++ m)
      | .parsed code message data =>
        .ok { code := jsOrNat code status,
              message := jsOrString message "OK", data := data }

/-- C9: `healthCheck` resolves exactly on an ok response with a parseable
body; the resolved `code` is the body's `code` when present and nonzero and
the HTTP status otherwise, the resolved `message` is the body's `message`
when present and nonempty and `"OK"` otherwise; and each failure case —
network error, non-ok status, body parse failure — rejects with a message
that starts with `PocketBase health check failed: `. -/
theorem healthCheck_spec (outcome : FetchOutcome) :
    ((∃ v, healthCheck outcome = .ok v) ↔
      ∃ status code message data,
        outcome = .response true status (.parsed code message data))
    ∧ (∀ status code message data,
        healthCheck (.response true status (.parsed code message data))
          = .ok { code := match code with
                  | Option.some n => if n = 0 then status else n
                  | Option.none => status,
                  message := match message with
                  | Option.some s => if s = "" then "OK" else s
                  | Option.none => "OK",
                  data := data })
    ∧ (∀ m, ∃ rest, healthCheck (.networkError m)
        = .error (healthCheckFailedPfx ++ rest))
    ∧ (∀ status body, ∃ rest, healthCheck (.response false status body)
        = .error (healthCheckFailedPfx ++ rest))
    ∧ (∀ status m, ∃ rest,
        healthCheck (.response true status (.parseFailure m))
        = .error (healthCheckFailedPfx ++ rest)) := by
  refine ⟨?_, ?_, ?_, ?_, ?_⟩
  · constructor
    · rintro ⟨v, hv⟩
      match outcome with
      | .networkError m => simp [healthCheck] at hv
      | .response ok status body =>
        cases ok with
        | false => simp [healthCheck] at hv
        | true =>
          match body with
          | .parseFailure m => simp [healthCheck] at hv
          | .parsed code message data =>
            exact ⟨status, code, message, data, rfl⟩
    · rintro ⟨status, code, message, data, rfl⟩
      exact ⟨_, rfl⟩
  · intro status code message data
    simp only [healthCheck, Bool.not_true, Bool.false_eq_true, if_false,
      Except.ok.injEq, PocketBaseHealthResponse.mk.injEq]
    refine ⟨?_, ?_, trivial⟩ <;>
      · cases code <;> cases message <;> rfl
  · intro m
    exact ⟨m, rfl⟩
  · intro status body
    exact ⟨"Health check failed with status " ++ toString status, by
      simp [healthCheck, String.append_assoc]⟩
  · intro status m
    exact ⟨m, rfl⟩

end N8nBackup
